import Mathlib

/-!
Shallow embedding of the image-processing utility (blur.py, filter.py,
stylization.py, main.py) and proofs about its documented properties.

Images are modelled as nested lists of `Nat` samples (unsigned 8-bit values,
stated as `< 256` hypotheses where it matters).  Convolution is computed in
`Int`, matching numpy's promotion of a `uint8` image against an `int64`
kernel.  Fallible operations return `Option`/`Except`.
-/

/-- A 3-d image: height × width × channels, unsigned 8-bit samples. -/
abbrev Img3u := List (List (List Nat))

/-- A 2-d array of unsigned 8-bit samples. -/
abbrev Mat2u := List (List Nat)

/-- A 2-d array of wide signed integers. -/
abbrev Mat2z := List (List Int)

/-- Entry of a 2-d integer array, 0 outside bounds (in-range uses are exact). -/
def entryZ (m : Mat2z) (i j : Nat) : Int := (m.getD i []).getD j 0

/-- Entry of a 2-d integer array at possibly negative indices; 0 outside
bounds, matching zero-fill boundary handling of full-mode convolution. -/
def entryZI (m : Mat2z) (i j : Int) : Int :=
  if 0 ≤ i ∧ 0 ≤ j then entryZ m i.toNat j.toNat else 0

/-- Entry of a 3-d `Nat` array, 0 outside bounds. -/
def entryN3 (a : Img3u) (i j c : Nat) : Nat := ((a.getD i []).getD j []).getD c 0

/-- Entry of a 3-d `Int` array, 0 outside bounds. -/
def entryZ3 (a : List (List (List Int))) (i j c : Nat) : Int :=
  ((a.getD i []).getD j []).getD c 0

/-- `kernel[::-1, ::-1]`: 180-degree rotation of a 2-d array. -/
def flip180 (m : Mat2z) : Mat2z := (m.map List.reverse).reverse

/-- `scipy.signal.convolve2d(in1, ker, 'valid')`: true 2-d convolution
restricted to fully-overlapping positions.  For `in1` of size H×W and a
kernel of size kH×kW the output is (H−kH+1)×(W−kW+1), and
`out[i][j] = Σ_{a<kH, b<kW} ker[a][b] * in1[i+kH−1−a][j+kW−1−b]`. -/
def convolve2dValid (in1 ker : Mat2z) : Mat2z :=
  (List.range (in1.length - (ker.length - 1))).map (fun i =>
    (List.range ((in1.headD []).length - ((ker.headD []).length - 1))).map (fun j =>
      ((List.range ker.length).map (fun a =>
        ((List.range (ker.headD []).length).map (fun b =>
          entryZ ker a b *
            entryZ in1 (i + (ker.length - 1) - a) (j + ((ker.headD []).length - 1) - b))).sum)).sum))

/-- `scipy.signal.convolve2d(in1, ker)` with the default mode `'full'` and
zero fill: output (H+kH−1)×(W+kW−1),
`out[n1][n2] = Σ_{a<kH, b<kW} ker[a][b] * in1[n1−a][n2−b]` with out-of-range
input entries read as 0. -/
def convolve2dFull (in1 ker : Mat2z) : Mat2z :=
  (List.range (in1.length + ker.length - 1)).map (fun (n1 : Nat) =>
    (List.range ((in1.headD []).length + (ker.headD []).length - 1)).map (fun (n2 : Nat) =>
      ((List.range ker.length).map (fun (a : Nat) =>
        ((List.range (ker.headD []).length).map (fun (b : Nat) =>
          entryZ ker a b * entryZI in1 ((n1 : Int) - (a : Int)) ((n2 : Int) - (b : Int)))).sum)).sum))

/-- `image[:, :, c]` viewed in the wide integer domain. -/
def chanZ (image : Img3u) (c : Nat) : Mat2z :=
  image.map (fun row => row.map (fun pix => ((pix.getD c 0 : Nat) : Int)))

/-- `image[:, :, c]` as unsigned 8-bit samples (also `cv2.split`). -/
def chanU (image : Img3u) (c : Nat) : Mat2u :=
  image.map (fun row => row.map (fun pix => pix.getD c 0))

/-- `np.stack([r, g, b], axis=2)` for three equally-shaped 2-d arrays. -/
def stack3 (r g b : Mat2z) : List (List (List Int)) :=
  (List.range r.length).map (fun i =>
    (List.range (r.headD []).length).map (fun j =>
      [entryZ r i j, entryZ g i j, entryZ b i j]))

/-- `rgb_convolve2d` (stylization.py): valid-mode convolution applied to each
of the three channels independently, restacked along the last axis. -/
def rgb_convolve2d (image : Img3u) (kernel : Mat2z) : List (List (List Int)) :=
  stack3 (convolve2dValid (chanZ image 0) kernel)
    (convolve2dValid (chanZ image 1) kernel)
    (convolve2dValid (chanZ image 2) kernel)

/-- `kernel8` of `apply_emboss`. -/
def kernel8 : Mat2z := [[-2, -1, 0], [-1, 1, 1], [0, 1, 2]]

/-- `kernel6` of `apply_sobel`. -/
def kernel6 : Mat2z := [[-1, 0, 1], [-2, 0, 2], [-1, 0, 1]]

/-- `np.clip(v, 0, 255)` on a single sample. -/
def clip255 (v : Int) : Int := min 255 (max 0 v)

/-- `astype(np.uint8)` on a single sample: reduction modulo 256. -/
def uint8OfInt (v : Int) : Nat := (v % 256).toNat

/-- Pointwise on a 3-d array. -/
def map3 (f : Int → Nat) (a : List (List (List Int))) : Img3u :=
  a.map (List.map (List.map f))

/-- Pointwise on a 2-d array. -/
def map2 (f : Int → Nat) (m : Mat2z) : Mat2u :=
  m.map (List.map f)

/-- `rgb_convolve2d(img, kernel8[::-1, ::-1]).clip(0, 255).astype(np.uint8)`:
the pixel computation of `apply_emboss`. -/
def apply_emboss_core (img : Img3u) : Img3u :=
  map3 (fun v => uint8OfInt (clip255 v)) (rgb_convolve2d img (flip180 kernel8))

/-- `rgb_convolve2d(img, kernel6[::-1, ::-1]).clip(0, 255).astype(np.uint8)`:
the 3-channel path of `apply_sobel`. -/
def sobel3_core (img : Img3u) : Img3u :=
  map3 (fun v => uint8OfInt (clip255 v)) (rgb_convolve2d img (flip180 kernel6))

/-- A uint8 2-d array viewed in the wide integer domain. -/
def toZ2 (m : Mat2u) : Mat2z :=
  m.map (fun r => r.map (fun (v : Nat) => (v : Int)))

/-- `convolve2d(img, kernel6[::-1, ::-1]).clip(0, 255).astype(np.uint8)`:
the 2-d grayscale path of `apply_sobel` (no mode argument, so scipy's
default `'full'` mode). -/
def sobel2_core (m : Mat2u) : Mat2u :=
  map2 (fun v => uint8OfInt (clip255 v)) (convolve2dFull (toZ2 m) (flip180 kernel6))

/-- A numpy ndarray of unsigned 8-bit samples: a shape and a row-major
flat buffer. -/
structure NDArray where
  shape : List Nat
  data : List Nat
deriving DecidableEq, Repr

/-- Worker for `chunkList`: `acc` holds the current chunk reversed, `k` the
number of slots left in it (between 1 and `n`). -/
def chunkAux (n : Nat) : List α → List α → Nat → List (List α)
  | [], acc, _ => if acc.isEmpty then [] else [acc.reverse]
  | x :: xs, acc, k =>
    if k ≤ 1 then (x :: acc).reverse :: chunkAux n xs [] n
    else chunkAux n xs (x :: acc) (k - 1)

/-- Split a flat buffer into consecutive chunks of size `n`. -/
def chunkList (n : Nat) (l : List α) : List (List α) :=
  if n = 0 then [] else chunkAux n l [] n

/-- Reassemble an H×W×C ndarray buffer into nested lists. -/
def toImg3 (a : NDArray) : Img3u :=
  chunkList (a.shape.getD 1 1) (chunkList (a.shape.getD 2 1) a.data)

/-- Reassemble an H×W ndarray buffer into nested lists. -/
def toMat (a : NDArray) : Mat2u :=
  chunkList (a.shape.getD 1 1) a.data

/-- Flatten a 3-d nested-list image back into an ndarray. -/
def ofImg3 (img : Img3u) : NDArray :=
  ⟨[img.length, (img.headD []).length, 3], (img.map List.flatten).flatten⟩

/-- Flatten a 2-d nested-list array back into an ndarray. -/
def ofMat (m : Mat2u) : NDArray :=
  ⟨[m.length, (m.headD []).length], m.flatten⟩

/-- The shape dispatch and pixel computation of `apply_sobel`
(stylization.py): `test = img.shape; if len(test) == 3 and test[-1] == 3`
convolve per channel; `elif len(test) == 2` convolve the 2-d array directly
(full mode); otherwise print "Unsupported format!" and return without
writing — modelled as `none`. -/
def apply_sobel_core (a : NDArray) : Option NDArray :=
  if a.shape.length = 3 ∧ a.shape.getLastD 0 = 3 then
    some (ofImg3 (sobel3_core (toImg3 a)))
  else if a.shape.length = 2 then
    some (ofMat (sobel2_core (toMat a)))
  else
    none

/-- `255 - img` on one sample of a uint8 numpy array (wrapping semantics
of uint8 arithmetic made explicit; no wrap occurs for samples ≤ 255). -/
def negPix (v : Nat) : Nat := ((255 - (v : Int)) % 256).toNat

/-- The pixel computation of `apply_negative` (filter.py). -/
def apply_negative_core (img : Img3u) : Img3u :=
  img.map (List.map (List.map negPix))

/-- Python's `str.lower()` on the strings this program matches: the ASCII
case mapping, applied characterwise. -/
def pyLower (s : String) : String := ⟨s.data.map Char.toLower⟩

/-- The `color_map` dictionary of `apply_color` (filter.py), transcribed
entry for entry (mask entries are the exact float32 values 0.0/1.0, written
as 0/1). -/
def colorMask (s : String) : Option (List (List Nat)) :=
  if s = "red" then some [[0, 0, 0], [0, 0, 0], [0, 0, 1]]
  else if s = "green" then some [[0, 0, 0], [0, 1, 0], [0, 0, 0]]
  else if s = "blue" then some [[0, 0, 1], [0, 0, 0], [0, 0, 0]]
  else if s = "yellow" then some [[0, 0, 0], [0, 1, 0], [0, 0, 1]]
  else if s = "cyan" then some [[0, 0, 1], [0, 1, 0], [0, 0, 0]]
  else if s = "magenta" then some [[0, 0, 1], [0, 0, 0], [0, 0, 1]]
  else none

/-- `cv2.transform` on one pixel: output channel `c` is the dot product of
matrix row `c` with the pixel's channel vector.  With 0/1 mask entries and
uint8 samples the float32 computation in the source is exact, so it is
carried out in `Nat`. -/
def transformPix (M : List (List Nat)) (pix : List Nat) : List Nat :=
  M.map (fun row => (List.zipWith (fun a b => a * b) row pix).sum)

/-- The parameter check, mask lookup and pixel computation of `apply_color`
(filter.py).  `none` models the reported, non-fatal error paths (missing or
unrecognized color name), which print and return without writing. -/
def apply_color_core (ocolor : Option String) (img : Img3u) : Option Img3u :=
  match ocolor with
  | none => none
  | some s =>
    if s = "" then none
    else
      match colorMask (pyLower s) with
      | none => none
      | some M => some (img.map (fun row => row.map (transformPix M)))

/-- `cv2.LUT` on one sample: table lookup indexed by the sample value. -/
def lutPix (t : List Nat) (v : Nat) : Nat := t.getD v 0

/-- `cv2.LUT` on a single-channel 2-d array. -/
def lutM (t : List Nat) (m : Mat2u) : Mat2u := m.map (List.map (lutPix t))

/-- `cv2.merge((b, g, r))` on one row of the three channel planes. -/
def mergeRows : List Nat → List Nat → List Nat → List (List Nat)
  | x :: xs, y :: ys, z :: zs => [x, y, z] :: mergeRows xs ys zs
  | _, _, _ => []

/-- `cv2.merge((b, g, r))`: restack three channel planes along a new last
axis. -/
def merge3 : Mat2u → Mat2u → Mat2u → Img3u
  | x :: xs, y :: ys, z :: zs => mergeRows x y z :: merge3 xs ys zs
  | _, _, _ => []

/-- The channel split, parameter check, LUT routing and merge of
`apply_temperature` (filter.py).  The two 256-entry lookup tables are built
in the source from floating-point `UnivariateSpline` fits; their values are
taken as parameters here (the claims checked below are independent of the
table contents).  `none` models the reported, non-fatal error paths. -/
def apply_temperature_core (increase_table decrease_table : List Nat)
    (otype : Option String) (img : Img3u) : Option Img3u :=
  let blue_channel := chanU img 0
  let green_channel := chanU img 1
  let red_channel := chanU img 2
  match otype with
  | none => none
  | some t =>
    if t = "" then none
    else if pyLower t = "warm" then
      some (merge3 (lutM decrease_table blue_channel) green_channel
        (lutM increase_table red_channel))
    else if pyLower t = "cold" then
      some (merge3 (lutM increase_table blue_channel) green_channel
        (lutM decrease_table red_channel))
    else none

/-- Python exception values relevant to this program: `FileNotFoundError`,
`ValueError`, and every other `Exception` subclass. -/
inductive PyExc where
  | fileNotFound (msg : String)
  | valueError (msg : String)
  | other (msg : String)

/-- The message carried by an exception. -/
def PyExc.msg : PyExc → String
  | .fileNotFound m => m
  | .valueError m => m
  | .other m => m

/-- `True` exactly on the `.ok` results: an `Except` computation that never
propagates an exception to its caller. -/
def isOkB (e : Except PyExc (List String)) : Bool :=
  match e with
  | .ok _ => true
  | .error _ => false

/-- The `FileNotFoundError` raised when `cv2.imread` returns `None`. -/
def loadError (input_path : String) : PyExc :=
  .fileNotFound ("Error: Could not load image from " ++ input_path ++
    ". Check the path and file format.")

/-- Arguments of the `blur` subcommand.  `σ` is the type of the forwarded
floating-point sigma parameters, which are passed through opaquely. -/
structure BlurArgs (σ : Type) where
  input_image : String
  output_image : String
  blur_type : String
  radius : Int
  sigma_x : σ
  sigma_y : σ
  sigma_color : σ
  sigma_space : σ

/-- `blur_image` (blur.py): load, dispatch on the blur type to a library
primitive, save; the whole body sits in
`try/except FileNotFoundError/except ValueError/except Exception`, each
handler printing a message.  Library primitives are parameters that may
raise any exception; the result is the list of printed lines, or a
propagated exception. -/
def blur_image {α σ : Type} (imread : String → Option α)
    (gaussianBlur : α → Int × Int → σ → σ → Except PyExc α)
    (medianBlur : α → Int → Except PyExc α)
    (boxBlur : α → Int × Int → Except PyExc α)
    (bilateralFilter : α → Int → σ → σ → Except PyExc α)
    (imwrite : String → α → Except PyExc Bool)
    (args : BlurArgs σ) : Except PyExc (List String) :=
  let body : Except PyExc (List String) := do
    let img ← match imread args.input_image with
      | none => throw (loadError args.input_image)
      | some i => pure i
    let blurred ←
      if args.blur_type = "gaussian" then
        gaussianBlur img (args.radius, args.radius) args.sigma_x args.sigma_y
      else if args.blur_type = "median" then
        medianBlur img args.radius
      else if args.blur_type = "box" then
        boxBlur img (args.radius, args.radius)
      else if args.blur_type = "bilateral" then
        bilateralFilter img args.radius args.sigma_color args.sigma_space
      else
        throw (.valueError ("Unknown blur type: " ++ args.blur_type ++
          ". Valid types: gaussian, median, box, bilateral."))
    let _ ← imwrite args.output_image blurred
    pure ["Image blurred (" ++ args.blur_type ++ ") successfully and saved to "
      ++ args.output_image]
  match body with
  | .ok msgs => .ok msgs
  | .error (.fileNotFound m) => .ok [m]
  | .error (.valueError m) => .ok [m]
  | .error e => .ok ["An error occurred: " ++ e.msg]

/-- `apply_grayscale` (filter.py): load, `cv2.cvtColor(..., COLOR_BGR2GRAY)`
(a library primitive parameter, of abstract result type), save; body in
`try/except FileNotFoundError/except Exception`. -/
def apply_grayscale {β : Type} (imread : String → Option Img3u)
    (cvtColorGray : Img3u → Except PyExc β)
    (imwrite : String → β → Except PyExc Bool)
    (input_path output_path : String) : Except PyExc (List String) :=
  let body : Except PyExc (List String) := do
    let img ← match imread input_path with
      | none => throw (loadError input_path)
      | some i => pure i
    let gray_img ← cvtColorGray img
    let _ ← imwrite output_path gray_img
    pure ["Grayscale filter applied and saved to " ++ output_path]
  match body with
  | .ok msgs => .ok msgs
  | .error (.fileNotFound m) => .ok [m]
  | .error e => .ok ["An error occurred: " ++ e.msg]

/-- `apply_sepia` (filter.py): load, `cv2.transform` with the fixed
floating-point sepia matrix (a library primitive parameter, of abstract
result type since its numerics are floating point), save; body in
`try/except FileNotFoundError/except Exception`. -/
def apply_sepia {β : Type} (imread : String → Option Img3u)
    (sepiaTransform : Img3u → Except PyExc β)
    (imwrite : String → β → Except PyExc Bool)
    (input_path output_path : String) : Except PyExc (List String) :=
  let body : Except PyExc (List String) := do
    let img ← match imread input_path with
      | none => throw (loadError input_path)
      | some i => pure i
    let sepia_img ← sepiaTransform img
    let _ ← imwrite output_path sepia_img
    pure ["Sepia filter applied and saved to " ++ output_path]
  match body with
  | .ok msgs => .ok msgs
  | .error (.fileNotFound m) => .ok [m]
  | .error e => .ok ["An error occurred: " ++ e.msg]

/-- `apply_negative` (filter.py): load, `255 - img`, save; body in
`try/except FileNotFoundError/except Exception`. -/
def apply_negative (imread : String → Option Img3u)
    (imwrite : String → Img3u → Except PyExc Bool)
    (input_path output_path : String) : Except PyExc (List String) :=
  let body : Except PyExc (List String) := do
    let img ← match imread input_path with
      | none => throw (loadError input_path)
      | some i => pure i
    let negative_img := apply_negative_core img
    let _ ← imwrite output_path negative_img
    pure ["Negative filter applied and saved to " ++ output_path]
  match body with
  | .ok msgs => .ok msgs
  | .error (.fileNotFound m) => .ok [m]
  | .error e => .ok ["An error occurred: " ++ e.msg]

/-- `apply_color` (filter.py): load, check the color-name parameter, look
the mask up, transform, save; the reported parameter errors print and
return normally; body in `try/except FileNotFoundError/except Exception`. -/
def apply_color (imread : String → Option Img3u)
    (imwrite : String → Img3u → Except PyExc Bool)
    (input_path output_path : String) (color_name : Option String) :
    Except PyExc (List String) :=
  let body : Except PyExc (List String) := do
    let img ← match imread input_path with
      | none => throw (loadError input_path)
      | some i => pure i
    match color_name with
    | none =>
      pure ["Error: --color_name must be specified with the 'color' filter. "
        ++ "Available colors: red, green, blue, yellow, cyan, magenta."]
    | some s =>
      if s = "" then
        pure ["Error: --color_name must be specified with the 'color' filter. "
          ++ "Available colors: red, green, blue, yellow, cyan, magenta."]
      else
        match colorMask (pyLower s) with
        | none =>
          pure ["Error: Unknown color: " ++ s ++
            ". Available colors: red, green, blue, yellow, cyan, magenta"]
        | some M => do
          let color_image := img.map (fun row => row.map (transformPix M))
          let _ ← imwrite output_path color_image
          pure ["Color filter '" ++ s ++ "' applied and saved to " ++ output_path]
  match body with
  | .ok msgs => .ok msgs
  | .error (.fileNotFound m) => .ok [m]
  | .error e => .ok ["An error occurred: " ++ e.msg]

/-- `apply_temperature` (filter.py): load, build the two spline LUTs (taken
as parameters, see `apply_temperature_core`), split, check the
temperature-type parameter, remap red/blue, merge, save; body in
`try/except FileNotFoundError/except Exception`. -/
def apply_temperature (imread : String → Option Img3u)
    (imwrite : String → Img3u → Except PyExc Bool)
    (increase_table decrease_table : List Nat)
    (input_path output_path : String) (temperature_type : Option String) :
    Except PyExc (List String) :=
  let body : Except PyExc (List String) := do
    let img ← match imread input_path with
      | none => throw (loadError input_path)
      | some i => pure i
    match apply_temperature_core increase_table decrease_table temperature_type img with
    | none =>
      pure ["Error: temperature_type missing or unknown."]
    | some output_image => do
      let _ ← imwrite output_path output_image
      pure ["Temperature filter applied and saved to " ++ output_path]
  match body with
  | .ok msgs => .ok msgs
  | .error (.fileNotFound m) => .ok [m]
  | .error e => .ok ["An error occurred: " ++ e.msg]

/-- `apply_pencil_sketch` (stylization.py): load, `cv2.pencilSketch` (a
library primitive parameter returning the gray and color renderings), save
the gray one; body in `try/except Exception`. -/
def apply_pencil_sketch {β : Type} (imread : String → Option Img3u)
    (pencilSketch : Img3u → Except PyExc (β × Img3u))
    (imwrite : String → β → Except PyExc Bool)
    (input_path output_path : String) : Except PyExc (List String) :=
  let body : Except PyExc (List String) := do
    let img ← match imread input_path with
      | none => throw (loadError input_path)
      | some i => pure i
    let dst ← pencilSketch img
    let _ ← imwrite output_path dst.1
    pure ["Pencil sketch effect applied and saved to " ++ output_path]
  match body with
  | .ok msgs => .ok msgs
  | .error e => .ok ["An error occurred: " ++ e.msg]

/-- `apply_contouring` (stylization.py): load, `cv2.stylization` (a library
primitive parameter), save; body in `try/except Exception`. -/
def apply_contouring (imread : String → Option Img3u)
    (stylizationPrim : Img3u → Except PyExc Img3u)
    (imwrite : String → Img3u → Except PyExc Bool)
    (input_path output_path : String) : Except PyExc (List String) :=
  let body : Except PyExc (List String) := do
    let img ← match imread input_path with
      | none => throw (loadError input_path)
      | some i => pure i
    let dst ← stylizationPrim img
    let _ ← imwrite output_path dst
    pure ["Contouring effect applied and saved to " ++ output_path]
  match body with
  | .ok msgs => .ok msgs
  | .error e => .ok ["An error occurred: " ++ e.msg]

/-- `apply_emboss` (stylization.py): load, `apply_emboss_core`, save; body
in `try/except Exception`. -/
def apply_emboss (imread : String → Option Img3u)
    (imwrite : String → Img3u → Except PyExc Bool)
    (input_path output_path : String) : Except PyExc (List String) :=
  let body : Except PyExc (List String) := do
    let img ← match imread input_path with
      | none => throw (loadError input_path)
      | some i => pure i
    let emboss_img := apply_emboss_core img
    let _ ← imwrite output_path emboss_img
    pure ["Emboss effect applied and saved to " ++ output_path]
  match body with
  | .ok msgs => .ok msgs
  | .error e => .ok ["An error occurred: " ++ e.msg]

/-- `apply_sobel` (stylization.py): load (a general ndarray, since the shape
is inspected), dispatch on the shape via `apply_sobel_core`, save unless the
shape is unsupported, in which case print and return without writing; body
in `try/except Exception`. -/
def apply_sobel (imread : String → Option NDArray)
    (imwrite : String → NDArray → Except PyExc Bool)
    (input_path output_path : String) : Except PyExc (List String) :=
  let body : Except PyExc (List String) := do
    let img ← match imread input_path with
      | none => throw (loadError input_path)
      | some i => pure i
    match apply_sobel_core img with
    | none => pure ["Unsupported format!"]
    | some sobel => do
      let _ ← imwrite output_path sobel
      pure ["A Sobel filter applied and saved to " ++ output_path]
  match body with
  | .ok msgs => .ok msgs
  | .error e => .ok ["An error occurred: " ++ e.msg]

/-- `out[:, :, c]` on the integer-valued convolution output. -/
def chanZ3 (a : List (List (List Int))) (c : Nat) : Mat2z :=
  a.map (fun row => row.map (fun pix => pix.getD c 0))

/-- The emboss output as the claim describes it: TRUE convolution of the
image with `kernel8` (the kernel 180°-rotated before sliding, so each
output sample is `Σ_{i,j} kernel8[i][j] * input[x+2−i][y+2−j]`), clipped
and cast.  `convolve2dValid` is itself true convolution, so this is the
engine applied to the unflipped kernel — to be compared with
`apply_emboss_core`, which the source computes with the pre-flipped
kernel. -/
def emboss_trueConvolution (img : Img3u) : Img3u :=
  map3 (fun v => uint8OfInt (clip255 v)) (rgb_convolve2d img kernel8)

/-!
## Helper lemmas
-/

/-- `getD` through `List.map`, when the default is mapped accordingly. -/
theorem getD_map (f : α → β) (l : List α) (i : Nat) (d : α) :
    (l.map f).getD i (f d) = f (l.getD i d) := by
  induction l generalizing i with
  | nil => simp
  | cons x xs ih =>
    cases i with
    | zero => simp
    | succ n => simp [ih n]

/-- `getD` on a mapped range. -/
theorem getD_map_range (f : Nat → α) (n i : Nat) (d : α) :
    ((List.range n).map f).getD i d = if i < n then f i else d := by
  by_cases h : i < n
  · rw [if_pos h]
    rw [List.getD_eq_getElem?_getD, List.getElem?_map, List.getElem?_range h]
    rfl
  · rw [if_neg h]
    rw [List.getD_eq_getElem?_getD, List.getElem?_map]
    rw [List.getElem?_eq_none (by simpa using Nat.le_of_not_lt h)]
    rfl

/-- `headD` on a mapped range. -/
theorem headD_map_range (f : Nat → α) (n : Nat) (d : α) (h : 0 < n) :
    ((List.range n).map f).headD d = f 0 := by
  obtain ⟨m, rfl⟩ : ∃ m, n = m + 1 := ⟨n - 1, by omega⟩
  rw [List.range_succ_eq_map]
  simp

/-- `headD` through `List.map`, when the default is mapped accordingly. -/
theorem headD_map (f : α → β) (l : List α) (d : α) :
    (l.map f).headD (f d) = f (l.headD d) := by
  cases l <;> simp

/-- Lengths of a mapped range. -/
theorem length_map_range (f : Nat → α) (n : Nat) :
    ((List.range n).map f).length = n := by
  simp

/-- A nonempty list's `headD` is a member. -/
theorem headD_mem {l : List α} (d : α) (h : l ≠ []) : l.headD d ∈ l := by
  cases l with
  | nil => exact absurd rfl h
  | cons x xs => simp

/-- Channel extraction keeps the image's height. -/
theorem chanZ_length (img : Img3u) (c : Nat) : (chanZ img c).length = img.length := by
  simp [chanZ]

/-- The first row of an extracted channel is the projected first row. -/
theorem chanZ_headD (img : Img3u) (c : Nat) :
    (chanZ img c).headD [] = (img.headD []).map (fun pix => ((pix.getD c 0 : Nat) : Int)) := by
  have := headD_map (fun row => row.map (fun pix => ((pix.getD c 0 : Nat) : Int))) img []
  simpa [chanZ] using this

/-- Height of a valid-mode convolution output. -/
theorem convolve2dValid_length (in1 ker : Mat2z) :
    (convolve2dValid in1 ker).length = in1.length - (ker.length - 1) := by
  simp [convolve2dValid]

/-- Every row of a valid-mode convolution output has width W−(kW−1). -/
theorem convolve2dValid_row_length (in1 ker : Mat2z) (row : List Int)
    (h : row ∈ convolve2dValid in1 ker) :
    row.length = (in1.headD []).length - ((ker.headD []).length - 1) := by
  rw [convolve2dValid] at h
  obtain ⟨i, _, rfl⟩ := List.mem_map.mp h
  simp

/-- First row of a valid-mode convolution output, when nonempty. -/
theorem convolve2dValid_headD_length (in1 ker : Mat2z)
    (h : 0 < in1.length - (ker.length - 1)) :
    ((convolve2dValid in1 ker).headD []).length
      = (in1.headD []).length - ((ker.headD []).length - 1) := by
  rw [convolve2dValid, headD_map_range _ _ _ h]
  simp

/-- In-range entry of a valid-mode convolution output. -/
theorem convolve2dValid_entry (in1 ker : Mat2z) (i j : Nat)
    (hi : i < in1.length - (ker.length - 1))
    (hj : j < (in1.headD []).length - ((ker.headD []).length - 1)) :
    entryZ (convolve2dValid in1 ker) i j
      = ((List.range ker.length).map (fun a =>
          ((List.range (ker.headD []).length).map (fun b =>
            entryZ ker a b *
              entryZ in1 (i + (ker.length - 1) - a)
                (j + ((ker.headD []).length - 1) - b))).sum)).sum := by
  rw [entryZ, convolve2dValid, getD_map_range, if_pos hi, getD_map_range, if_pos hj]

/-- Height of a full-mode convolution output. -/
theorem convolve2dFull_length (in1 ker : Mat2z) :
    (convolve2dFull in1 ker).length = in1.length + ker.length - 1 := by
  simp [convolve2dFull]

/-- Every row of a full-mode convolution output has width W+kW−1. -/
theorem convolve2dFull_row_length (in1 ker : Mat2z) (row : List Int)
    (h : row ∈ convolve2dFull in1 ker) :
    row.length = (in1.headD []).length + (ker.headD []).length - 1 := by
  rw [convolve2dFull] at h
  obtain ⟨i, _, rfl⟩ := List.mem_map.mp h
  simp

/-- In-range entry of a full-mode convolution output. -/
theorem convolve2dFull_entry (in1 ker : Mat2z) (n1 n2 : Nat)
    (h1 : n1 < in1.length + ker.length - 1)
    (h2 : n2 < (in1.headD []).length + (ker.headD []).length - 1) :
    entryZ (convolve2dFull in1 ker) n1 n2
      = ((List.range ker.length).map (fun a =>
          ((List.range (ker.headD []).length).map (fun b =>
            entryZ ker a b *
              entryZI in1 ((n1 : Int) - (a : Int)) ((n2 : Int) - (b : Int)))).sum)).sum := by
  rw [entryZ, convolve2dFull, getD_map_range, if_pos h1, getD_map_range, if_pos h2]

/-- In-range entry of a stacked 3-channel array. -/
theorem stack3_entry (r g b : Mat2z) (i j c : Nat)
    (hi : i < r.length) (hj : j < (r.headD []).length) :
    entryZ3 (stack3 r g b) i j c
      = [entryZ r i j, entryZ g i j, entryZ b i j].getD c 0 := by
  rw [entryZ3, stack3, getD_map_range, if_pos hi, getD_map_range, if_pos hj]

/-- Entry of a pointwise-mapped 3-d array, for maps sending 0 to 0. -/
theorem map3_entry (f : Int → Nat) (hf : f 0 = 0) (a : List (List (List Int)))
    (i j c : Nat) : entryN3 (map3 f a) i j c = f (entryZ3 a i j c) := by
  rw [entryN3, map3, entryZ3]
  rw [show ([] : List (List Nat)) = List.map (List.map f) [] from rfl, getD_map]
  rw [show ([] : List Nat) = List.map f [] from rfl, getD_map]
  rw [show (0 : Nat) = f 0 from hf.symm, getD_map]

/-- Entry of a pointwise-mapped 2-d array, for maps sending 0 to 0. -/
theorem map2_entry (f : Int → Nat) (hf : f 0 = 0) (m : Mat2z) (i j : Nat) :
    (((map2 f m).getD i []).getD j 0) = f (entryZ m i j) := by
  rw [map2, entryZ]
  rw [show ([] : List Nat) = List.map f [] from rfl, getD_map]
  rw [show (0 : Nat) = f 0 from hf.symm, getD_map]

/-- The clip-and-cast sample map sends 0 to 0. -/
theorem clipcast_zero : uint8OfInt (clip255 0) = 0 := by decide

/-!
## C7 — clipping to [0, 255], no wrap-around
-/

/-- C7: every sample of the emboss and sobel outputs is the wide-domain
convolution result clamped into [0, 255] and then converted to unsigned
8-bit: the written sample at any position equals
`uint8OfInt (clip255 raw)` where `raw` is the corresponding wide-domain
convolution entry, and the clip-and-cast map sends every value below 0 to
0 and every value above 255 to 255, and is the identity on [0, 255] — no
value wraps modulo 256. -/
theorem c7_clamped_not_wrapped (img : Img3u) (m : Mat2u) (i j c : Nat) :
    entryN3 (apply_emboss_core img) i j c
      = uint8OfInt (clip255 (entryZ3 (rgb_convolve2d img (flip180 kernel8)) i j c)) ∧
    entryN3 (sobel3_core img) i j c
      = uint8OfInt (clip255 (entryZ3 (rgb_convolve2d img (flip180 kernel6)) i j c)) ∧
    ((sobel2_core m).getD i []).getD j 0
      = uint8OfInt (clip255 (entryZ (convolve2dFull (toZ2 m) (flip180 kernel6)) i j)) ∧
    (∀ v : Int, v < 0 → uint8OfInt (clip255 v) = 0) ∧
    (∀ v : Int, 255 < v → uint8OfInt (clip255 v) = 255) ∧
    (∀ v : Int, 0 ≤ v → v ≤ 255 → (uint8OfInt (clip255 v) : Int) = v) := by
  refine ⟨?_, ?_, ?_, ?_, ?_, ?_⟩
  · rw [apply_emboss_core]
    exact map3_entry (fun v => uint8OfInt (clip255 v)) clipcast_zero
      (rgb_convolve2d img (flip180 kernel8)) i j c
  · rw [sobel3_core]
    exact map3_entry (fun v => uint8OfInt (clip255 v)) clipcast_zero
      (rgb_convolve2d img (flip180 kernel6)) i j c
  · rw [sobel2_core]
    exact map2_entry (fun v => uint8OfInt (clip255 v)) clipcast_zero
      (convolve2dFull (toZ2 m) (flip180 kernel6)) i j
  · intro v hv
    rw [clip255, max_eq_left (le_of_lt hv)]
    decide
  · intro v hv
    rw [clip255, max_eq_right (by omega : (0 : Int) ≤ v), min_eq_left (by omega : (255 : Int) ≤ v)]
    decide
  · intro v h0 h255
    rw [clip255, max_eq_right h0, min_eq_right h255, uint8OfInt,
      Int.emod_eq_of_lt h0 (by omega), Int.toNat_of_nonneg h0]

/-- C7 witness: the relation instantiated on a concrete image, together
with a negative raw value clamping to 0 and an overflowing one clamping
to 255 (not wrapping). -/
theorem c7_clamped_not_wrapped_witness :
    entryN3 (apply_emboss_core [[[1, 1, 1], [0, 0, 0], [0, 0, 0]],
        [[0, 0, 0], [0, 0, 0], [0, 0, 0]], [[0, 0, 0], [0, 0, 0], [0, 0, 0]]]) 0 0 0
      = uint8OfInt (clip255 (entryZ3 (rgb_convolve2d [[[1, 1, 1], [0, 0, 0], [0, 0, 0]],
        [[0, 0, 0], [0, 0, 0], [0, 0, 0]], [[0, 0, 0], [0, 0, 0], [0, 0, 0]]]
        (flip180 kernel8)) 0 0 0)) ∧
    uint8OfInt (clip255 (-5)) = 0 ∧ uint8OfInt (clip255 300) = 255 :=
  ⟨(c7_clamped_not_wrapped _ [] 0 0 0).1,
    (c7_clamped_not_wrapped [] [] 0 0 0).2.2.2.1 (-5) (by decide),
    (c7_clamped_not_wrapped [] [] 0 0 0).2.2.2.2.1 300 (by decide)⟩

/-!
## C1 — output dimensions of the convolution filters
-/

/-- The flipped emboss kernel, computed. -/
theorem flip180_kernel8 : flip180 kernel8 = [[2, 1, 0], [1, 1, -1], [0, -1, -2]] := by
  decide

/-- The flipped sobel kernel, computed. -/
theorem flip180_kernel6 : flip180 kernel6 = [[1, 0, -1], [2, 0, -2], [1, 0, -1]] := by
  decide

/-- `map3` keeps the outer length. -/
theorem map3_length (f : Int → Nat) (a : List (List (List Int))) :
    (map3 f a).length = a.length := by
  simp [map3]

/-- `stack3` has the height of its first argument. -/
theorem stack3_length (r g b : Mat2z) : (stack3 r g b).length = r.length := by
  simp [stack3]

/-- Every row of `stack3` has the width of the first argument's first row. -/
theorem stack3_row_length (r g b : Mat2z) (row : List (List Int))
    (h : row ∈ stack3 r g b) : row.length = (r.headD []).length := by
  rw [stack3] at h
  obtain ⟨i, _, rfl⟩ := List.mem_map.mp h
  simp

/-- A nonempty list has a nonzero length-derived witness: `img ≠ []` from a
positive length. -/
theorem ne_nil_of_length_pos {l : List α} (h : 0 < l.length) : l ≠ [] := by
  cases l with
  | nil => simp at h
  | cons x xs => simp

/-- Shape of the per-channel convolve-and-clip pipeline shared by emboss and
the 3-channel sobel path, for any 3×3 kernel. -/
theorem rgbPipeline_shape (img : Img3u) (k : Mat2z) (f : Int → Nat) (h w : Nat)
    (hh : img.length = h) (hw : ∀ row ∈ img, row.length = w)
    (h3 : 3 ≤ h) (_w3 : 3 ≤ w) (hk : k.length = 3) (hkw : (k.headD []).length = 3) :
    (map3 f (rgb_convolve2d img k)).length = h - 2 ∧
    ∀ row ∈ map3 f (rgb_convolve2d img k), row.length = w - 2 := by
  have himg : img ≠ [] := ne_nil_of_length_pos (by omega)
  have hhead : (img.headD []).length = w := hw _ (headD_mem [] himg)
  constructor
  · rw [map3_length, rgb_convolve2d, stack3_length, convolve2dValid_length,
      chanZ_length, hh, hk]
  · intro row hrow
    rw [map3] at hrow
    obtain ⟨r0, hr0, rfl⟩ := List.mem_map.mp hrow
    rw [List.length_map]
    rw [rgb_convolve2d] at hr0
    rw [stack3_row_length _ _ _ _ hr0]
    rw [convolve2dValid_headD_length _ _
      (by rw [chanZ_length, hh, hk]; omega)]
    rw [chanZ_headD, List.length_map, hkw, hhead]

/-- `toZ2` keeps the outer length. -/
theorem toZ2_length (m : Mat2u) : (toZ2 m).length = m.length := by
  simp [toZ2]

/-- The first row of `toZ2` is the cast first row. -/
theorem toZ2_headD (m : Mat2u) :
    (toZ2 m).headD [] = (m.headD []).map (fun (v : Nat) => (v : Int)) := by
  have := headD_map (fun r => r.map (fun (v : Nat) => (v : Int))) m []
  simpa [toZ2] using this

/-- C1 counterexample: on a 3×3 two-dimensional (grayscale) image, the sobel
operation produces a 5×5 output, not the (H−2)×(W−2) = 1×1 output the claim
asserts for the grayscale path — the source calls `convolve2d` without a
mode argument there, so scipy's default full mode applies. -/
theorem c1_counterexample_gray_full_mode :
    (apply_sobel_core ⟨[3, 3], [0, 0, 0, 0, 0, 0, 0, 0, 0]⟩).map NDArray.shape
      = some [5, 5] ∧ ¬(5 = 3 - 2) := by
  decide

/-- C1 (amended): the emboss filter and the 3-channel sobel path use
valid-mode convolution with a 3×3 kernel, so their outputs are
(H−2)×(W−2); the 2-dimensional grayscale sobel path calls `convolve2d`
with scipy's default full mode, so its output is (H+2)×(W+2). -/
theorem c1_output_dimensions (img : Img3u) (h w : Nat)
    (hh : img.length = h) (hw : ∀ row ∈ img, row.length = w)
    (h3 : 3 ≤ h) (w3 : 3 ≤ w) :
    ((apply_emboss_core img).length = h - 2 ∧
      ∀ row ∈ apply_emboss_core img, row.length = w - 2) ∧
    ((sobel3_core img).length = h - 2 ∧
      ∀ row ∈ sobel3_core img, row.length = w - 2) ∧
    (∀ (m : Mat2u) (hm wm : Nat), m.length = hm → (∀ row ∈ m, row.length = wm) →
      1 ≤ hm → 1 ≤ wm →
      (sobel2_core m).length = hm + 2 ∧ ∀ row ∈ sobel2_core m, row.length = wm + 2) := by
  refine ⟨?_, ?_, ?_⟩
  · rw [apply_emboss_core]
    exact rgbPipeline_shape img (flip180 kernel8) _ h w hh hw h3 w3
      (by decide) (by decide)
  · rw [sobel3_core]
    exact rgbPipeline_shape img (flip180 kernel6) _ h w hh hw h3 w3
      (by decide) (by decide)
  · intro m hm wm hmh hmw hm1 wm1
    have hmne : m ≠ [] := ne_nil_of_length_pos (by omega)
    have hmhead : (m.headD []).length = wm := hmw _ (headD_mem [] hmne)
    constructor
    · rw [sobel2_core, map2, List.length_map, convolve2dFull_length,
        toZ2_length, hmh, flip180_kernel6]
      simp
    · intro row hrow
      rw [sobel2_core, map2] at hrow
      obtain ⟨r0, hr0, rfl⟩ := List.mem_map.mp hrow
      rw [List.length_map]
      rw [convolve2dFull_row_length _ _ _ hr0, toZ2_headD, List.length_map,
        hmhead, flip180_kernel6]
      simp

/-- C1 witness: the amended dimension facts instantiated on a concrete 3×3×3
color image and a concrete 1×1 grayscale image. -/
theorem c1_output_dimensions_witness :
    ((apply_emboss_core [[[1, 2, 3], [0, 0, 0], [0, 0, 0]],
        [[0, 0, 0], [0, 0, 0], [0, 0, 0]], [[0, 0, 0], [0, 0, 0], [0, 0, 0]]]).length = 3 - 2 ∧
      ∀ row ∈ apply_emboss_core [[[1, 2, 3], [0, 0, 0], [0, 0, 0]],
        [[0, 0, 0], [0, 0, 0], [0, 0, 0]], [[0, 0, 0], [0, 0, 0], [0, 0, 0]]],
        row.length = 3 - 2) ∧
    (sobel2_core [[7]]).length = 1 + 2 ∧
    ∀ row ∈ sobel2_core [[7]], row.length = 1 + 2 := by
  have H := c1_output_dimensions [[[1, 2, 3], [0, 0, 0], [0, 0, 0]],
    [[0, 0, 0], [0, 0, 0], [0, 0, 0]], [[0, 0, 0], [0, 0, 0], [0, 0, 0]]] 3 3
    rfl (by decide) (by decide) (by decide)
  exact ⟨H.1, (H.2.2 [[7]] 1 1 rfl (by decide) (by decide) (by decide)).1,
    (H.2.2 [[7]] 1 1 rfl (by decide) (by decide) (by decide)).2⟩

/-!
## C2 — the filters compute correlation, not true convolution
-/

/-- C2 counterexample: on a 3×3 color image whose only nonzero samples sit
at pixel (0,0), the emboss output sample is 0 (the raw value −2 =
kernel8[0][0], i.e. correlation, clipped to 0), whereas true convolution
with kernel8 as the claim describes would give 2 (= kernel8[2][2]). -/
theorem c2_counterexample_correlation :
    apply_emboss_core [[[1, 1, 1], [0, 0, 0], [0, 0, 0]],
        [[0, 0, 0], [0, 0, 0], [0, 0, 0]], [[0, 0, 0], [0, 0, 0], [0, 0, 0]]]
      = [[[0, 0, 0]]] ∧
    emboss_trueConvolution [[[1, 1, 1], [0, 0, 0], [0, 0, 0]],
        [[0, 0, 0], [0, 0, 0], [0, 0, 0]], [[0, 0, 0], [0, 0, 0], [0, 0, 0]]]
      = [[[2, 2, 2]]] ∧
    ([[[0, 0, 0]]] : Img3u) ≠ [[[2, 2, 2]]] := by
  decide

/-- In-range entry of the emboss convolution stage: correlation of the
channel with the unflipped `kernel8`. -/
theorem rgbconv_flip8_entry (img : Img3u) (h w i j c : Nat)
    (hh : img.length = h) (hw : ∀ row ∈ img, row.length = w)
    (h3 : 3 ≤ h) (_w3 : 3 ≤ w) (hi : i < h - 2) (hj : j < w - 2) (hc : c < 3) :
    entryZ3 (rgb_convolve2d img (flip180 kernel8)) i j c
      = ((List.range 3).map (fun a =>
          ((List.range 3).map (fun b =>
            entryZ kernel8 a b * entryZ (chanZ img c) (i + a) (j + b))).sum)).sum := by
  have himg : img ≠ [] := ne_nil_of_length_pos (by omega)
  have hhead : (img.headD []).length = w := hw _ (headD_mem [] himg)
  have hk8l : (flip180 kernel8).length = 3 := rfl
  have hk8w : ((flip180 kernel8).headD []).length = 3 := rfl
  have hlen : ∀ c' : Nat,
      (convolve2dValid (chanZ img c') (flip180 kernel8)).length = h - 2 := by
    intro c'
    rw [convolve2dValid_length, chanZ_length, hh, hk8l]
  have hwid : ((convolve2dValid (chanZ img 0) (flip180 kernel8)).headD []).length
      = w - 2 := by
    rw [convolve2dValid_headD_length _ _ (by rw [chanZ_length, hh, hk8l]; omega),
      chanZ_headD, List.length_map, hhead, hk8w]
  have hcv : ∀ c' : Nat, entryZ (convolve2dValid (chanZ img c') (flip180 kernel8)) i j
      = ((List.range 3).map (fun a =>
          ((List.range 3).map (fun b =>
            entryZ kernel8 a b * entryZ (chanZ img c') (i + a) (j + b))).sum)).sum := by
    intro c'
    rw [convolve2dValid_entry _ _ i j (by rw [chanZ_length, hh, hk8l]; omega)
      (by rw [chanZ_headD, List.length_map, hhead, hk8w]; omega)]
    rw [hk8l, hk8w, flip180_kernel8]
    rw [show List.range 3 = [0, 1, 2] from rfl]
    simp only [List.map_cons, List.map_nil, List.sum_cons, List.sum_nil]
    norm_num [entryZ, kernel8]
    ring
  rw [rgb_convolve2d, stack3_entry _ _ _ i j c (by rw [hlen]; omega) (by rw [hwid]; omega)]
  interval_cases c
  · exact hcv 0
  · exact hcv 1
  · exact hcv 2

/-- In-range entry of the 3-channel sobel convolution stage: correlation of
the channel with the unflipped `kernel6`. -/
theorem rgbconv_flip6_entry (img : Img3u) (h w i j c : Nat)
    (hh : img.length = h) (hw : ∀ row ∈ img, row.length = w)
    (h3 : 3 ≤ h) (_w3 : 3 ≤ w) (hi : i < h - 2) (hj : j < w - 2) (hc : c < 3) :
    entryZ3 (rgb_convolve2d img (flip180 kernel6)) i j c
      = ((List.range 3).map (fun a =>
          ((List.range 3).map (fun b =>
            entryZ kernel6 a b * entryZ (chanZ img c) (i + a) (j + b))).sum)).sum := by
  have himg : img ≠ [] := ne_nil_of_length_pos (by omega)
  have hhead : (img.headD []).length = w := hw _ (headD_mem [] himg)
  have hk6l : (flip180 kernel6).length = 3 := rfl
  have hk6w : ((flip180 kernel6).headD []).length = 3 := rfl
  have hlen : ∀ c' : Nat,
      (convolve2dValid (chanZ img c') (flip180 kernel6)).length = h - 2 := by
    intro c'
    rw [convolve2dValid_length, chanZ_length, hh, hk6l]
  have hwid : ((convolve2dValid (chanZ img 0) (flip180 kernel6)).headD []).length
      = w - 2 := by
    rw [convolve2dValid_headD_length _ _ (by rw [chanZ_length, hh, hk6l]; omega),
      chanZ_headD, List.length_map, hhead, hk6w]
  have hcv : ∀ c' : Nat, entryZ (convolve2dValid (chanZ img c') (flip180 kernel6)) i j
      = ((List.range 3).map (fun a =>
          ((List.range 3).map (fun b =>
            entryZ kernel6 a b * entryZ (chanZ img c') (i + a) (j + b))).sum)).sum := by
    intro c'
    rw [convolve2dValid_entry _ _ i j (by rw [chanZ_length, hh, hk6l]; omega)
      (by rw [chanZ_headD, List.length_map, hhead, hk6w]; omega)]
    rw [hk6l, hk6w, flip180_kernel6]
    rw [show List.range 3 = [0, 1, 2] from rfl]
    simp only [List.map_cons, List.map_nil, List.sum_cons, List.sum_nil]
    norm_num [entryZ, kernel6]
    ring
  rw [rgb_convolve2d, stack3_entry _ _ _ i j c (by rw [hlen]; omega) (by rw [hwid]; omega)]
  interval_cases c
  · exact hcv 0
  · exact hcv 1
  · exact hcv 2

/-- In-range entry of the grayscale sobel convolution stage: zero-padded
correlation of the 2-d image with the unflipped `kernel6`. -/
theorem full_flip6_entry (m : Mat2u) (hm wm n1 n2 : Nat)
    (hmh : m.length = hm) (hmw : ∀ row ∈ m, row.length = wm)
    (hm1 : 1 ≤ hm) (wm1 : 1 ≤ wm) (hn1 : n1 < hm + 2) (hn2 : n2 < wm + 2) :
    entryZ (convolve2dFull (toZ2 m) (flip180 kernel6)) n1 n2
      = ((List.range 3).map (fun a =>
          ((List.range 3).map (fun b =>
            entryZ kernel6 a b *
              entryZI (toZ2 m) ((n1 : Int) + a - 2) ((n2 : Int) + b - 2))).sum)).sum := by
  have hmne : m ≠ [] := ne_nil_of_length_pos (by omega)
  have hmhead : (m.headD []).length = wm := hmw _ (headD_mem [] hmne)
  have hk6l : (flip180 kernel6).length = 3 := rfl
  have hk6w : ((flip180 kernel6).headD []).length = 3 := rfl
  rw [convolve2dFull_entry _ _ n1 n2
    (by rw [toZ2_length, hmh, hk6l]; omega)
    (by rw [toZ2_headD, List.length_map, hmhead, hk6w]; omega)]
  rw [hk6l, hk6w, flip180_kernel6]
  rw [show List.range 3 = [0, 1, 2] from rfl]
  simp only [List.map_cons, List.map_nil, List.sum_cons, List.sum_nil]
  norm_num [entryZ, kernel6]
  ring_nf

/-- C2 (amended): the source flips each kernel 180° and then hands it to
`scipy.signal.convolve2d`, which itself performs true convolution (another
flip), so the two rotations cancel: each raw output sample is the
CROSS-CORRELATION of the image with the unrotated kernel —
`Σ_{a,b} kernel[a][b] * input[x+a][y+b]` in valid mode (emboss and
3-channel sobel), and its zero-padded analogue anchored at offset −2 in
full mode (grayscale sobel) — not true convolution with that kernel. -/
theorem c2_correlation_not_convolution (img : Img3u) (h w i j c : Nat)
    (hh : img.length = h) (hw : ∀ row ∈ img, row.length = w)
    (h3 : 3 ≤ h) (w3 : 3 ≤ w) (hi : i < h - 2) (hj : j < w - 2) (hc : c < 3) :
    entryZ3 (rgb_convolve2d img (flip180 kernel8)) i j c
      = ((List.range 3).map (fun a =>
          ((List.range 3).map (fun b =>
            entryZ kernel8 a b * entryZ (chanZ img c) (i + a) (j + b))).sum)).sum ∧
    entryZ3 (rgb_convolve2d img (flip180 kernel6)) i j c
      = ((List.range 3).map (fun a =>
          ((List.range 3).map (fun b =>
            entryZ kernel6 a b * entryZ (chanZ img c) (i + a) (j + b))).sum)).sum ∧
    ∀ (m : Mat2u) (hm wm n1 n2 : Nat), m.length = hm → (∀ row ∈ m, row.length = wm) →
      1 ≤ hm → 1 ≤ wm → n1 < hm + 2 → n2 < wm + 2 →
      entryZ (convolve2dFull (toZ2 m) (flip180 kernel6)) n1 n2
        = ((List.range 3).map (fun a =>
            ((List.range 3).map (fun b =>
              entryZ kernel6 a b *
                entryZI (toZ2 m) ((n1 : Int) + a - 2) ((n2 : Int) + b - 2))).sum)).sum :=
  ⟨rgbconv_flip8_entry img h w i j c hh hw h3 w3 hi hj hc,
    rgbconv_flip6_entry img h w i j c hh hw h3 w3 hi hj hc,
    fun m hm wm n1 n2 h1 h2 h3 h4 h5 h6 =>
      full_flip6_entry m hm wm n1 n2 h1 h2 h3 h4 h5 h6⟩

/-- C2 witness: the correlation identity instantiated on a concrete 3×3
color image at output position (0,0,0), and on a concrete 1×1 grayscale
image at output position (0,0). -/
theorem c2_correlation_not_convolution_witness :
    entryZ3 (rgb_convolve2d [[[1, 2, 3], [4, 5, 6], [7, 8, 9]],
        [[1, 0, 0], [0, 1, 0], [0, 0, 1]], [[2, 2, 2], [3, 3, 3], [4, 4, 4]]]
        (flip180 kernel8)) 0 0 0
      = ((List.range 3).map (fun a =>
          ((List.range 3).map (fun b =>
            entryZ kernel8 a b *
              entryZ (chanZ [[[1, 2, 3], [4, 5, 6], [7, 8, 9]],
                [[1, 0, 0], [0, 1, 0], [0, 0, 1]], [[2, 2, 2], [3, 3, 3], [4, 4, 4]]] 0)
                (0 + a) (0 + b))).sum)).sum ∧
    entryZ (convolve2dFull (toZ2 [[9]]) (flip180 kernel6)) 0 0
      = ((List.range 3).map (fun a =>
          ((List.range 3).map (fun b =>
            entryZ kernel6 a b *
              entryZI (toZ2 [[9]]) ((0 : Int) + a - 2) ((0 : Int) + b - 2))).sum)).sum := by
  have H := c2_correlation_not_convolution [[[1, 2, 3], [4, 5, 6], [7, 8, 9]],
    [[1, 0, 0], [0, 1, 0], [0, 0, 1]], [[2, 2, 2], [3, 3, 3], [4, 4, 4]]] 3 3 0 0 0
    rfl (by decide) (by decide) (by decide) (by decide) (by decide) (by decide)
  exact ⟨H.1, H.2.2 [[9]] 1 1 0 0 rfl (by decide) (by decide) (by decide)
    (by decide) (by decide)⟩

/-!
## C5 — unsupported shapes for sobel
-/

/-- C5: for every input array whose shape is neither 3-dimensional with 3
channels on the last axis nor 2-dimensional, the sobel shape dispatch
yields no output (`none`, modelling the "Unsupported format!" report and
the early return), and the full operation reports the condition and
returns without invoking the writer: its result is
`ok ["Unsupported format!"]` for EVERY writer `imwrite`, so no output
image is written. -/
theorem c5_sobel_unsupported_shape (a : NDArray)
    (h1 : ¬(a.shape.length = 3 ∧ a.shape.getLastD 0 = 3))
    (h2 : ¬(a.shape.length = 2)) :
    apply_sobel_core a = none ∧
    ∀ (imread : String → Option NDArray)
      (imwrite : String → NDArray → Except PyExc Bool) (ip op : String),
      imread ip = some a →
      apply_sobel imread imwrite ip op = .ok ["Unsupported format!"] := by
  have hcore : apply_sobel_core a = none := by
    rw [apply_sobel_core, if_neg h1, if_neg h2]
  refine ⟨hcore, ?_⟩
  intro imread imwrite ip op hread
  rw [apply_sobel]
  simp only [hread, hcore, pure_bind]
  rfl

/-- C5 witness: a 3-dimensional array with 4 channels (shape [2, 2, 4]) is
rejected without a write, whatever the writer does. -/
theorem c5_sobel_unsupported_shape_witness :
    apply_sobel_core ⟨[2, 2, 4], [0, 0, 0, 0]⟩ = none ∧
    apply_sobel (fun _ => some ⟨[2, 2, 4], [0, 0, 0, 0]⟩) (fun _ _ => .ok true)
      "in.png" "out.png" = .ok ["Unsupported format!"] :=
  ⟨(c5_sobel_unsupported_shape ⟨[2, 2, 4], [0, 0, 0, 0]⟩ (by decide) (by decide)).1,
    (c5_sobel_unsupported_shape ⟨[2, 2, 4], [0, 0, 0, 0]⟩ (by decide) (by decide)).2
      (fun _ => some ⟨[2, 2, 4], [0, 0, 0, 0]⟩) (fun _ _ => .ok true) "in.png" "out.png" rfl⟩

/-!
## C4 — the negative filter is an involution
-/

/-- One uint8 sample: double negation is the identity. -/
theorem negPix_negPix (v : Nat) (h : v < 256) : negPix (negPix v) = v := by
  have h1 : negPix v = 255 - v := by
    rw [negPix, Int.emod_eq_of_lt (by omega) (by omega)]
    omega
  rw [h1, negPix, Int.emod_eq_of_lt (by omega) (by omega)]
  omega

/-- Double negation on one channel list. -/
theorem negPix_map_twice (l : List Nat) (h : ∀ v ∈ l, v < 256) :
    List.map negPix (List.map negPix l) = l := by
  induction l with
  | nil => rfl
  | cons v vs ih =>
    simp only [List.map_cons, List.cons.injEq]
    exact ⟨negPix_negPix v (h v (by simp)), ih (fun x hx => h x (by simp [hx]))⟩

/-- Double negation on one row. -/
theorem negPix_map2_twice (r : Mat2u) (h : ∀ pix ∈ r, ∀ v ∈ pix, v < 256) :
    List.map (List.map negPix) (List.map (List.map negPix) r) = r := by
  induction r with
  | nil => rfl
  | cons pix ps ih =>
    simp only [List.map_cons, List.cons.injEq]
    exact ⟨negPix_map_twice pix (h pix (by simp)),
      ih (fun p hp => h p (by simp [hp]))⟩

/-- C4: applying the negative transform twice returns the original image
exactly, for every image of unsigned 8-bit samples. -/
theorem c4_negative_involution (img : Img3u)
    (hb : ∀ row ∈ img, ∀ pix ∈ row, ∀ v ∈ pix, v < 256) :
    apply_negative_core (apply_negative_core img) = img := by
  rw [apply_negative_core, apply_negative_core]
  induction img with
  | nil => rfl
  | cons row rest ih =>
    simp only [List.map_cons, List.cons.injEq]
    exact ⟨negPix_map2_twice row (hb row (by simp)),
      ih (fun r hr => hb r (by simp [hr]))⟩

/-- C4 witness: double negation on a concrete image. -/
theorem c4_negative_involution_witness :
    apply_negative_core (apply_negative_core [[[0, 128, 255], [1, 2, 3]]])
      = [[[0, 128, 255], [1, 2, 3]]] :=
  c4_negative_involution [[[0, 128, 255], [1, 2, 3]]] (by decide)

/-!
## C3 — the color masks
-/

/-- C3: the claim fails on the source.  For the color name "blue" the mask
in `color_map` is `[[0,0,1],[0,0,0],[0,0,0]]`, whose first row writes the
input's RED channel value into the output's blue channel (channel order is
blue-green-red).  On the single-pixel image with channels (B,G,R) =
(10,20,30), the output pixel is (30,0,0): its blue sample 30 is neither 0
nor the input's blue sample 10, contradicting the claim; the selector
intent documented in the spec would give (10,0,0).  The same misplaced
first-row entry affects "cyan" and "magenta". -/
theorem c3_color_mask_bug :
    apply_color_core (some "blue") [[[10, 20, 30]]] = some [[[30, 0, 0]]] ∧
    apply_color_core (some "cyan") [[[10, 20, 30]]] = some [[[30, 20, 0]]] ∧
    apply_color_core (some "magenta") [[[10, 20, 30]]] = some [[[30, 0, 30]]] ∧
    ¬((30 : Nat) = 0 ∨ (30 : Nat) = 10) := by
  decide

/-!
## C6 — temperature filter channel routing
-/

/-- Channel projections of merged rows recover the three planes' rows. -/
theorem mergeRows_chan (x y z : List Nat) (hxy : x.length = y.length)
    (hxz : x.length = z.length) :
    (mergeRows x y z).map (fun pix => pix.getD 0 0) = x ∧
    (mergeRows x y z).map (fun pix => pix.getD 1 0) = y ∧
    (mergeRows x y z).map (fun pix => pix.getD 2 0) = z := by
  induction x generalizing y z with
  | nil =>
    have hy : y = [] := List.length_eq_zero.mp hxy.symm
    have hz : z = [] := List.length_eq_zero.mp hxz.symm
    subst hy; subst hz
    exact ⟨rfl, rfl, rfl⟩
  | cons a as ih =>
    cases y with
    | nil => simp at hxy
    | cons b bs =>
      cases z with
      | nil => simp at hxz
      | cons c cs =>
        have h1 : as.length = bs.length := by
          simp only [List.length_cons] at hxy
          omega
        have h2 : as.length = cs.length := by
          simp only [List.length_cons] at hxz
          omega
        obtain ⟨e0, e1, e2⟩ := ih bs cs h1 h2
        refine ⟨?_, ?_, ?_⟩
        · show ([a, b, c] : List Nat).getD 0 0
            :: (mergeRows as bs cs).map (fun pix => pix.getD 0 0) = a :: as
          rw [e0]
          rfl
        · show ([a, b, c] : List Nat).getD 1 0
            :: (mergeRows as bs cs).map (fun pix => pix.getD 1 0) = b :: bs
          rw [e1]
          rfl
        · show ([a, b, c] : List Nat).getD 2 0
            :: (mergeRows as bs cs).map (fun pix => pix.getD 2 0) = c :: cs
          rw [e2]
          rfl

/-- Channel extraction after `merge3` recovers the three planes, provided
their rows line up (which holds when all three come from one image). -/
theorem chanU_merge3 (B G R : Mat2u)
    (hBG : List.Forall₂ (fun u v => u.length = v.length) B G)
    (hBR : List.Forall₂ (fun u v => u.length = v.length) B R) :
    chanU (merge3 B G R) 0 = B ∧ chanU (merge3 B G R) 1 = G ∧
    chanU (merge3 B G R) 2 = R := by
  induction B generalizing G R with
  | nil =>
    cases hBG
    cases hBR
    exact ⟨rfl, rfl, rfl⟩
  | cons b bs ih =>
    cases hBG with
    | cons hbg hrest =>
      cases hBR with
      | cons hbr hrest2 =>
        obtain ⟨e0, e1, e2⟩ := ih _ _ hrest hrest2
        obtain ⟨f0, f1, f2⟩ := mergeRows_chan b _ _ hbg hbr
        refine ⟨?_, ?_, ?_⟩
        · show (mergeRows b _ _).map (fun pix => pix.getD 0 0)
            :: chanU (merge3 bs _ _) 0 = b :: bs
          rw [f0, e0]
        · show (mergeRows b _ _).map (fun pix => pix.getD 1 0)
            :: chanU (merge3 bs _ _) 1 = _ :: _
          rw [f1, e1]
        · show (mergeRows b _ _).map (fun pix => pix.getD 2 0)
            :: chanU (merge3 bs _ _) 2 = _ :: _
          rw [f2, e2]

/-- Two per-row transforms of one list produce length-aligned results when
they preserve each row's length equally. -/
theorem forall₂_length_map (l : List α) (F G : α → List β)
    (h : ∀ a, (F a).length = (G a).length) :
    List.Forall₂ (fun u v => u.length = v.length) (l.map F) (l.map G) := by
  induction l with
  | nil => constructor
  | cons x xs ih => exact List.Forall₂.cons (h x) ih

/-- C6: for both temperature types the green channel of the output equals
the green channel of the input unchanged, while red and blue are exactly
the LUT remaps — warm sends red through the increase table and blue
through the decrease table, cold the other way around. -/
theorem c6_temperature_channels (inc dec : List Nat) (img : Img3u) :
    (apply_temperature_core inc dec (some "warm") img).map (fun o => chanU o 1)
      = some (chanU img 1) ∧
    (apply_temperature_core inc dec (some "warm") img).map (fun o => chanU o 2)
      = some (lutM inc (chanU img 2)) ∧
    (apply_temperature_core inc dec (some "warm") img).map (fun o => chanU o 0)
      = some (lutM dec (chanU img 0)) ∧
    (apply_temperature_core inc dec (some "cold") img).map (fun o => chanU o 1)
      = some (chanU img 1) ∧
    (apply_temperature_core inc dec (some "cold") img).map (fun o => chanU o 2)
      = some (lutM dec (chanU img 2)) ∧
    (apply_temperature_core inc dec (some "cold") img).map (fun o => chanU o 0)
      = some (lutM inc (chanU img 0)) := by
  have halign : ∀ (t1 t2 : List Nat),
      List.Forall₂ (fun u v => u.length = v.length)
        (lutM t1 (chanU img 0)) (chanU img 1) ∧
      List.Forall₂ (fun u v => u.length = v.length)
        (lutM t1 (chanU img 0)) (lutM t2 (chanU img 2)) := by
    intro t1 t2
    constructor
    · rw [lutM, chanU, List.map_map, chanU]
      exact forall₂_length_map img _ _ (fun row => by simp)
    · rw [lutM, lutM, chanU, chanU, List.map_map, List.map_map]
      exact forall₂_length_map img _ _ (fun row => by simp)
  obtain ⟨w0, w1, w2⟩ := chanU_merge3 (lutM dec (chanU img 0)) (chanU img 1)
    (lutM inc (chanU img 2)) (halign dec inc).1 (halign dec inc).2
  obtain ⟨k0, k1, k2⟩ := chanU_merge3 (lutM inc (chanU img 0)) (chanU img 1)
    (lutM dec (chanU img 2)) (halign inc dec).1 (halign inc dec).2
  refine ⟨?_, ?_, ?_, ?_, ?_, ?_⟩
  · show some (chanU (merge3 (lutM dec (chanU img 0)) (chanU img 1)
      (lutM inc (chanU img 2))) 1) = some (chanU img 1)
    rw [w1]
  · show some (chanU (merge3 (lutM dec (chanU img 0)) (chanU img 1)
      (lutM inc (chanU img 2))) 2) = some (lutM inc (chanU img 2))
    rw [w2]
  · show some (chanU (merge3 (lutM dec (chanU img 0)) (chanU img 1)
      (lutM inc (chanU img 2))) 0) = some (lutM dec (chanU img 0))
    rw [w0]
  · show some (chanU (merge3 (lutM inc (chanU img 0)) (chanU img 1)
      (lutM dec (chanU img 2))) 1) = some (chanU img 1)
    rw [k1]
  · show some (chanU (merge3 (lutM inc (chanU img 0)) (chanU img 1)
      (lutM dec (chanU img 2))) 2) = some (lutM dec (chanU img 2))
    rw [k2]
  · show some (chanU (merge3 (lutM inc (chanU img 0)) (chanU img 1)
      (lutM dec (chanU img 2))) 0) = some (lutM inc (chanU img 0))
    rw [k0]

/-!
## C9 — case-insensitive parameter matching
-/

/-- `Char.ofNatAux` unpacks to the packed codepoint. -/
theorem toNat_ofNatAux (m : Nat) (h : m.isValidChar) :
    (Char.ofNatAux m h).toNat = m := rfl

/-- ASCII lower-casing is idempotent on characters. -/
theorem char_toLower_idem (c : Char) : c.toLower.toLower = c.toLower := by
  unfold Char.toLower
  by_cases h : c.toNat ≥ 65 ∧ c.toNat ≤ 90
  · rw [if_pos h]
    have hv : (c.toNat + 32).isValidChar := Or.inl (by omega)
    rw [show Char.ofNat (c.toNat + 32) = Char.ofNatAux (c.toNat + 32) hv from dif_pos hv]
    rw [toNat_ofNatAux]
    rw [if_neg (by omega)]
  · rw [if_neg h, if_neg h]

/-- ASCII lower-casing is idempotent on character lists. -/
theorem map_toLower_idem (l : List Char) :
    (l.map Char.toLower).map Char.toLower = l.map Char.toLower := by
  induction l with
  | nil => rfl
  | cons c cs ih => simp [char_toLower_idem, ih]

/-- `pyLower` is idempotent. -/
theorem pyLower_idem (s : String) : pyLower (pyLower s) = pyLower s := by
  show (⟨(s.data.map Char.toLower).map Char.toLower⟩ : String) = ⟨s.data.map Char.toLower⟩
  rw [map_toLower_idem]

/-- `pyLower` sends exactly the empty string to the empty string. -/
theorem pyLower_eq_empty_iff (s : String) : pyLower s = "" ↔ s = "" := by
  cases s with
  | mk data =>
    simp [pyLower, String.ext_iff]

/-- C9: colour-name and temperature-type parameters are matched
case-insensitively — on any non-empty parameter string the operations
behave identically on the string and on its lowercased form, since both
branch only on the lowered string. -/
theorem c9_case_insensitive (s : String) (img img2 : Img3u) (inc dec : List Nat)
    (h : s ≠ "") :
    apply_color_core (some s) img = apply_color_core (some (pyLower s)) img ∧
    apply_temperature_core inc dec (some s) img2
      = apply_temperature_core inc dec (some (pyLower s)) img2 := by
  have hne : pyLower s ≠ "" := fun e => h ((pyLower_eq_empty_iff s).mp e)
  constructor
  · show (if s = "" then none else
        match colorMask (pyLower s) with
        | none => none
        | some M => some (img.map (fun row => row.map (transformPix M))))
      = (if pyLower s = "" then none else
        match colorMask (pyLower (pyLower s)) with
        | none => none
        | some M => some (img.map (fun row => row.map (transformPix M))))
    rw [if_neg h, if_neg hne, pyLower_idem]
  · show (if s = "" then none
        else if pyLower s = "warm" then
          some (merge3 (lutM dec (chanU img2 0)) (chanU img2 1) (lutM inc (chanU img2 2)))
        else if pyLower s = "cold" then
          some (merge3 (lutM inc (chanU img2 0)) (chanU img2 1) (lutM dec (chanU img2 2)))
        else none)
      = (if pyLower s = "" then none
        else if pyLower (pyLower s) = "warm" then
          some (merge3 (lutM dec (chanU img2 0)) (chanU img2 1) (lutM inc (chanU img2 2)))
        else if pyLower (pyLower s) = "cold" then
          some (merge3 (lutM inc (chanU img2 0)) (chanU img2 1) (lutM dec (chanU img2 2)))
        else none)
    rw [if_neg h, if_neg hne, pyLower_idem]

/-- C9 witness: "RED" selects the red mask exactly as "red" does, and
"Warm" selects the warm remapping exactly as "warm" does. -/
theorem c9_case_insensitive_witness :
    apply_color_core (some "RED") [[[1, 2, 3]]]
      = apply_color_core (some (pyLower "RED")) [[[1, 2, 3]]] ∧
    apply_temperature_core [7] [9] (some "Warm") [[[1, 2, 3]]]
      = apply_temperature_core [7] [9] (some (pyLower "Warm")) [[[1, 2, 3]]] :=
  ⟨(c9_case_insensitive "RED" [[[1, 2, 3]]] [[[1, 2, 3]]] [7] [9] (by decide)).1,
    (c9_case_insensitive "Warm" [[[1, 2, 3]]] [[[1, 2, 3]]] [7] [9] (by decide)).2⟩

/-!
## C10 — per-channel non-interference of the convolution engine
-/

/-- `headD` on a mapped range, unconditional form. -/
theorem headD_map_range2 (f : Nat → α) (n : Nat) (d : α) :
    ((List.range n).map f).headD d = if 0 < n then f 0 else d := by
  cases n with
  | zero => simp
  | succ m =>
    rw [List.range_succ_eq_map]
    simp

/-- The integer channel view factors through the uint8 channel view. -/
theorem chanZ_eq_toZ2_chanU (img : Img3u) (c : Nat) :
    chanZ img c = toZ2 (chanU img c) := by
  simp [chanZ, chanU, toZ2, List.map_map]

/-- Channel extraction preserves the profile of row lengths. -/
theorem map_length_chanU (img : Img3u) (c : Nat) :
    (chanU img c).map List.length = img.map List.length := by
  simp [chanU, List.map_map]

/-- Equal row-length profiles give equal first-row lengths. -/
theorem headD_len_of_map_len {l1 l2 : Img3u}
    (h : l1.map List.length = l2.map List.length) :
    (l1.headD []).length = (l2.headD []).length := by
  cases l1 <;> cases l2 <;> simp_all

/-- Extracting channel `c` from a stacked array reads only the `c`-th plane
(plus the first plane's dimensions). -/
theorem chanZ3_stack3 (r g b : Mat2z) :
    chanZ3 (stack3 r g b) 0 = (List.range r.length).map (fun i =>
      (List.range (r.headD []).length).map (fun j => entryZ r i j)) ∧
    chanZ3 (stack3 r g b) 1 = (List.range r.length).map (fun i =>
      (List.range (r.headD []).length).map (fun j => entryZ g i j)) ∧
    chanZ3 (stack3 r g b) 2 = (List.range r.length).map (fun i =>
      (List.range (r.headD []).length).map (fun j => entryZ b i j)) := by
  refine ⟨?_, ?_, ?_⟩ <;>
  · rw [chanZ3, stack3, List.map_map]
    congr 1
    funext i
    show (List.map _ (List.range _)).map _ = _
    rw [List.map_map]
    congr 1

/-- C10: in the per-channel convolution engine each output channel depends
only on the same-indexed input channel (and the image dimensions, which the
channel itself determines): two 3-channel images agreeing on channel `c`
produce outputs agreeing on channel `c`, whatever their other channels
hold. -/
theorem c10_channel_noninterference (ker : Mat2z) (img1 img2 : Img3u) (c : Nat)
    (hc : c < 3) (hch : chanU img1 c = chanU img2 c) :
    chanZ3 (rgb_convolve2d img1 ker) c = chanZ3 (rgb_convolve2d img2 ker) c := by
  have hchZ : chanZ img1 c = chanZ img2 c := by
    rw [chanZ_eq_toZ2_chanU, chanZ_eq_toZ2_chanU, hch]
  have hlen : img1.length = img2.length := by
    have h1 : (chanU img1 c).length = (chanU img2 c).length := by rw [hch]
    simpa [chanU] using h1
  have hmaplen : img1.map List.length = img2.map List.length := by
    rw [← map_length_chanU img1 c, ← map_length_chanU img2 c, hch]
  have hheadlen : (img1.headD []).length = (img2.headD []).length :=
    headD_len_of_map_len hmaplen
  have hr_len : (convolve2dValid (chanZ img1 0) ker).length
      = (convolve2dValid (chanZ img2 0) ker).length := by
    rw [convolve2dValid_length, convolve2dValid_length, chanZ_length, chanZ_length, hlen]
  have hr_wid : ((convolve2dValid (chanZ img1 0) ker).headD []).length
      = ((convolve2dValid (chanZ img2 0) ker).headD []).length := by
    rw [convolve2dValid, convolve2dValid, headD_map_range2, headD_map_range2,
      chanZ_length, chanZ_length, hlen, chanZ_headD, chanZ_headD,
      List.length_map, List.length_map, hheadlen]
    split
    · simp
    · simp
  have hconv : convolve2dValid (chanZ img1 c) ker
      = convolve2dValid (chanZ img2 c) ker := by
    rw [hchZ]
  interval_cases c
  · rw [rgb_convolve2d, rgb_convolve2d, (chanZ3_stack3 _ _ _).1,
      (chanZ3_stack3 _ _ _).1, hr_len, hr_wid, hconv]
  · rw [rgb_convolve2d, rgb_convolve2d, (chanZ3_stack3 _ _ _).2.1,
      (chanZ3_stack3 _ _ _).2.1, hr_len, hr_wid, hconv]
  · rw [rgb_convolve2d, rgb_convolve2d, (chanZ3_stack3 _ _ _).2.2,
      (chanZ3_stack3 _ _ _).2.2, hr_len, hr_wid, hconv]

/-- C10 witness: two 3×3 images that agree on channel 1 but differ on
channels 0 and 2 get identical green output channels from the sobel
kernel. -/
theorem c10_channel_noninterference_witness :
    chanZ3 (rgb_convolve2d [[[1, 5, 9], [2, 5, 8], [3, 5, 7]],
        [[4, 5, 6], [5, 5, 5], [6, 5, 4]], [[7, 5, 3], [8, 5, 2], [9, 5, 1]]] kernel6) 1
      = chanZ3 (rgb_convolve2d [[[0, 5, 0], [0, 5, 0], [0, 5, 0]],
        [[0, 5, 0], [0, 5, 0], [0, 5, 0]], [[0, 5, 0], [0, 5, 0], [0, 5, 0]]] kernel6) 1 :=
  c10_channel_noninterference kernel6
    [[[1, 5, 9], [2, 5, 8], [3, 5, 7]],
      [[4, 5, 6], [5, 5, 5], [6, 5, 4]], [[7, 5, 3], [8, 5, 2], [9, 5, 1]]]
    [[[0, 5, 0], [0, 5, 0], [0, 5, 0]],
      [[0, 5, 0], [0, 5, 0], [0, 5, 0]], [[0, 5, 0], [0, 5, 0], [0, 5, 0]]]
    1 (by decide) (by decide)

/-!
## C8 — every operation catches every exception
-/

/-- C8: for every choice of paths, parameters and library-primitive
behaviour (each primitive may raise any exception), every transform
operation — `blur_image`, the five filter operations and the four
stylization operations — returns normally with its printed lines: no
exception propagates to the caller.  Each operation's body sits inside the
source's `try`, and its `except` clauses (`FileNotFoundError`,
`ValueError` where present, and the final `except Exception`) each print
and fall through. -/
theorem c8_no_exception_escapes :
    (∀ (α σ : Type) (imread : String → Option α)
      (gaussianBlur : α → Int × Int → σ → σ → Except PyExc α)
      (medianBlur : α → Int → Except PyExc α)
      (boxBlur : α → Int × Int → Except PyExc α)
      (bilateralFilter : α → Int → σ → σ → Except PyExc α)
      (imwrite : String → α → Except PyExc Bool) (args : BlurArgs σ),
      isOkB (blur_image imread gaussianBlur medianBlur boxBlur bilateralFilter
        imwrite args) = true) ∧
    (∀ (β : Type) (imread : String → Option Img3u)
      (cvtColorGray : Img3u → Except PyExc β)
      (imwrite : String → β → Except PyExc Bool) (ip op : String),
      isOkB (apply_grayscale imread cvtColorGray imwrite ip op) = true) ∧
    (∀ (β : Type) (imread : String → Option Img3u)
      (sepiaTransform : Img3u → Except PyExc β)
      (imwrite : String → β → Except PyExc Bool) (ip op : String),
      isOkB (apply_sepia imread sepiaTransform imwrite ip op) = true) ∧
    (∀ (imread : String → Option Img3u)
      (imwrite : String → Img3u → Except PyExc Bool) (ip op : String),
      isOkB (apply_negative imread imwrite ip op) = true) ∧
    (∀ (imread : String → Option Img3u)
      (imwrite : String → Img3u → Except PyExc Bool) (ip op : String)
      (color_name : Option String),
      isOkB (apply_color imread imwrite ip op color_name) = true) ∧
    (∀ (imread : String → Option Img3u)
      (imwrite : String → Img3u → Except PyExc Bool) (inc dec : List Nat)
      (ip op : String) (temperature_type : Option String),
      isOkB (apply_temperature imread imwrite inc dec ip op temperature_type) = true) ∧
    (∀ (β : Type) (imread : String → Option Img3u)
      (pencilSketch : Img3u → Except PyExc (β × Img3u))
      (imwrite : String → β → Except PyExc Bool) (ip op : String),
      isOkB (apply_pencil_sketch imread pencilSketch imwrite ip op) = true) ∧
    (∀ (imread : String → Option Img3u)
      (stylizationPrim : Img3u → Except PyExc Img3u)
      (imwrite : String → Img3u → Except PyExc Bool) (ip op : String),
      isOkB (apply_contouring imread stylizationPrim imwrite ip op) = true) ∧
    (∀ (imread : String → Option Img3u)
      (imwrite : String → Img3u → Except PyExc Bool) (ip op : String),
      isOkB (apply_emboss imread imwrite ip op) = true) ∧
    (∀ (imread : String → Option NDArray)
      (imwrite : String → NDArray → Except PyExc Bool) (ip op : String),
      isOkB (apply_sobel imread imwrite ip op) = true) := by
  refine ⟨?_, ?_, ?_, ?_, ?_, ?_, ?_, ?_, ?_, ?_⟩
  · intro α σ imread g m bx bl imwrite args
    simp only [blur_image]
    split <;> rfl
  · intro β imread prim imwrite ip op
    simp only [apply_grayscale]
    split <;> rfl
  · intro β imread prim imwrite ip op
    simp only [apply_sepia]
    split <;> rfl
  · intro imread imwrite ip op
    simp only [apply_negative]
    split <;> rfl
  · intro imread imwrite ip op color_name
    simp only [apply_color]
    split <;> rfl
  · intro imread imwrite inc dec ip op temperature_type
    simp only [apply_temperature]
    split <;> rfl
  · intro β imread prim imwrite ip op
    simp only [apply_pencil_sketch]
    split <;> rfl
  · intro imread prim imwrite ip op
    simp only [apply_contouring]
    split <;> rfl
  · intro imread imwrite ip op
    simp only [apply_emboss]
    split <;> rfl
  · intro imread imwrite ip op
    simp only [apply_sobel]
    split <;> rfl
